import Mathlib

/-!
Shallow embedding of `src/Dashboard.py` (a Streamlit payroll dashboard).

Modelling conventions:
* A pandas cell is a `Cell`: `na` models `NaN`/missing, `num q` a finite
  numeric value (floats are modelled by rationals; every value appearing in
  the claims is a finite decimal, so no rounding behaviour is lost), and
  `text s` a string value.
* A pandas `Series` (one column) is a `List Cell`; a `DataFrame` is an
  association list of column name to column (`Frame`), mirroring pandas'
  columnar layout.  Python exceptions are modelled with `Except PyError`.
* Python's `float(s)` / `Series.astype(float)` string parsing is modelled by
  `pyFloat` over the decimal-literal fragment of the grammar (optional sign,
  digits, decimal point, exponent, and the `nan` forms).  Infinity literals
  and digit underscores are outside the modelled fragment; no claim and no
  payroll value exercises them.
-/

namespace Dashboard

/-- Cell of a pandas column: missing (NaN), numeric, or string. -/
inductive Cell where
  | na : Cell
  | num : ℚ → Cell
  | text : String → Cell
  deriving DecidableEq, Repr

abbrev Col := List Cell

/-- DataFrame, as an association list of column name to column. -/
abbrev Frame := List (String × Col)

/-- Python exceptions raised by the modelled fragment. -/
inductive PyError where
  | valueError : String → PyError   -- ValueError from astype(float)
  | keyError : String → PyError     -- KeyError from indexing a missing column
  deriving DecidableEq, Repr

/-- Python `str(e)` for the modelled exceptions. -/
def pyErrorStr : PyError → String
  | .valueError s => "could not convert string to float: " ++ "'" ++ s ++ "'"
  | .keyError s => "'" ++ s ++ "'"

deriving instance DecidableEq for Except

/-- Whitespace stripped by Python `str.strip()` and `float()` (space, tab,
newline, carriage return, vertical tab, form feed). -/
def isPySpace (c : Char) : Bool :=
  c.isWhitespace || c == '\x0b' || c == '\x0c'

/-- Python `s.strip()`. -/
def pyStrip (s : String) : String :=
  String.mk (((s.data.dropWhile isPySpace).reverse.dropWhile isPySpace).reverse)

/-- Pandas `.str.replace(r'[$,]', '', regex=True)`: drop every literal
dollar sign and comma. -/
def removeDollarComma (s : String) : String :=
  String.mk (s.data.filter (fun c => !(c == '$' || c == ',')))

/-- Value of a list of decimal digit characters. -/
def digitsToNat (l : List Char) : Nat :=
  l.foldl (fun n c => 10 * n + (c.toNat - '0'.toNat)) 0

/-- Exact value of the decimal `(-1)^neg * m * 10^k`, built with `mkRat` so
that it evaluates by kernel reduction. -/
def decScaled (neg : Bool) (m : Nat) (k : Int) : ℚ :=
  let n : Int := if neg then -(m : Int) else (m : Int)
  if 0 ≤ k then mkRat (n * (10 : Int) ^ k.toNat) 1
  else mkRat n ((10 : Nat) ^ (-k).toNat)

/-- Exponent digits of a float literal: optional sign then a non-empty run
of digits consuming the whole remaining input. -/
def parseExpDigits (r : List Char) : Option Int :=
  let sp : Bool × List Char :=
    match r with
    | '+' :: t => (false, t)
    | '-' :: t => (true, t)
    | _ => (false, r)
  let ed := sp.2.takeWhile Char.isDigit
  let rest := sp.2.dropWhile Char.isDigit
  if ed.isEmpty || !rest.isEmpty then none
  else some (if sp.1 then -(digitsToNat ed : Int) else (digitsToNat ed : Int))

/-- Optional exponent part of a float literal: empty input means exponent 0;
otherwise `e`/`E` followed by exponent digits. -/
def parseExpPart : List Char → Option Int
  | [] => some 0
  | 'e' :: r => parseExpDigits r
  | 'E' :: r => parseExpDigits r
  | _ => none

/-- Core of Python `float(s)` on an already-stripped character list:
optional sign, then either `digits[.digits]` or `.digits`, then an optional
exponent part consuming the rest of the input.  Returns `none` on any
string outside this grammar (Python raises `ValueError` there). -/
def pyFloatCore (l : List Char) : Option ℚ :=
  let sp : Bool × List Char :=
    match l with
    | '+' :: r => (false, r)
    | '-' :: r => (true, r)
    | _ => (false, l)
  let ip := sp.2.takeWhile Char.isDigit
  let r1 := sp.2.dropWhile Char.isDigit
  let omr : Option (Nat × Nat × List Char) :=
    match r1 with
    | '.' :: r2 =>
        let fp := r2.takeWhile Char.isDigit
        let r3 := r2.dropWhile Char.isDigit
        if ip.isEmpty && fp.isEmpty then none
        else some (digitsToNat (ip ++ fp), fp.length, r3)
    | _ =>
        if ip.isEmpty then none else some (digitsToNat ip, 0, r1)
  match omr with
  | none => none
  | some (m, flen, rest) =>
      match parseExpPart rest with
      | none => none
      | some e => some (decScaled sp.1 m (e - (flen : Int)))

/-- Python `float(s)` on the modelled fragment.
`none` models `ValueError`; `some none` models the value `NaN` (accepted
spellings: optional sign then `nan`, case-insensitive); `some (some q)` a
finite value. -/
def pyFloat (s : String) : Option (Option ℚ) :=
  let t := (pyStrip s).data
  let body : List Char :=
    match t with
    | '+' :: r => r
    | '-' :: r => r
    | _ => t
  if body.map Char.toLower = ['n', 'a', 'n'] then some none
  else
    match pyFloatCore t with
    | some q => some (some q)
    | none => none

/-- One cell of `clean_money_optimized` (Dashboard.py line 27):
`astype(str)` (NaN prints as "nan"; a numeric value round-trips through its
decimal form), then `.str.replace(r'[$,]', '', regex=True).str.strip()`,
then `.replace('', np.nan)`, then `.astype(float)` which raises
`ValueError` on residual non-numeric text. -/
def clean_money_optimized_cell : Cell → Except PyError Cell
  | .na => .ok .na
  | .num q => .ok (.num q)
  | .text s =>
      let t := pyStrip (removeDollarComma s)
      if t = "" then .ok .na
      else
        match pyFloat t with
        | some (some q) => .ok (.num q)
        | some none => .ok .na
        | none => .error (.valueError t)

/-- Series-level `clean_money_optimized`: the vectorised pipeline applied to
every cell; the first `ValueError` aborts the whole conversion, as
`astype(float)` does. -/
def clean_money_optimized (col : Col) : Except PyError Col :=
  col.mapM clean_money_optimized_cell

/-- One cell of `pd.to_numeric(·, errors='coerce')`: numeric parse with
failures coerced to NaN instead of raised. -/
def toNumericCell : Cell → Cell
  | .na => .na
  | .num q => .num q
  | .text s =>
      match pyFloat s with
      | some (some q) => .num q
      | some none => .na
      | none => .na

/-- One cell of `Series.fillna(d)`. -/
def fillnaCell (d : ℚ) : Cell → Cell
  | .na => .num d
  | c => c

/-- Presence test for a column name, `col in df.columns`. -/
def hasCol (df : Frame) (c : String) : Bool :=
  df.any (fun p => p.1 == c)

/-- Column selection `df[c]`; raises `KeyError` when the column is absent. -/
def getCol (df : Frame) (c : String) : Except PyError Col :=
  match df.find? (fun p => p.1 == c) with
  | some p => .ok p.2
  | none => .error (.keyError c)

/-- Column assignment `df[c] = v`: replaces the column when present,
appends it otherwise. -/
def setCol (df : Frame) (c : String) (v : Col) : Frame :=
  if hasCol df c then df.map (fun p => if p.1 == c then (c, v) else p)
  else df ++ [(c, v)]

/-- Fixed list of monetary columns (Dashboard.py lines 45-53). -/
def monetary_columns : List String :=
  ["SALARIO MENSUAL INDIVIDUAL", "Prestaciones AVG",
   "Prestaciones Ajustado", "Prima Servicios",
   "Cesantías", "Intereses Cesantias", "Vacaciones",
   "SENA", "ICBF", "Caja de Compensación",
   "Salud", "Pensión", "ARL (2% avg)",
   "Total Mensual (COP)", "Anual (COP)",
   "Mensual (USD)", "Anual (USD)"]

/-- Cleaning loop of the loader (lines 56-58): for each listed monetary
column that is present, replace it by its cleaned version; absent columns
are skipped.  A `ValueError` from `astype(float)` aborts the loop. -/
def cleanMonetary (df : Frame) : List String → Except PyError Frame
  | [] => .ok df
  | c :: rest =>
      if hasCol df c then
        match getCol df c with
        | .error e => .error e
        | .ok col =>
            match clean_money_optimized col with
            | .error e => .error e
            | .ok cleaned => cleanMonetary (setCol df c cleaned) rest
      else cleanMonetary df rest

/-- Zero-fill step `df[monetary_columns] = df[monetary_columns].fillna(0)`
(line 65): every listed column is indexed unconditionally, so a missing
column raises `KeyError`.  (pandas raises before assigning anything; since
any error discards the whole frame, performing the assignments one column
at a time is observationally the same here.) -/
def fillnaMonetary (df : Frame) : List String → Except PyError Frame
  | [] => .ok df
  | c :: rest =>
      match getCol df c with
      | .error e => .error e
      | .ok col => fillnaMonetary (setCol df c (col.map (fillnaCell 0))) rest

/-- Body of the `try` block of `load_data_optimized` on an already-read raw
frame (lines 44-67): clean present monetary columns, coerce `CANTIDAD` with
default 1, zero-fill all listed monetary columns. -/
def load_body (df : Frame) : Except PyError Frame :=
  match cleanMonetary df monetary_columns with
  | .error e => .error e
  | .ok d1 =>
      match getCol d1 "CANTIDAD" with
      | .error e => .error e
      | .ok cant =>
          fillnaMonetary
            (setCol d1 "CANTIDAD" ((cant.map toNumericCell).map (fillnaCell 1)))
            monetary_columns

/-- Outcome of `pd.read_csv`, the only I/O of the loader: the file may be
missing (`FileNotFoundError`), malformed (`pd.errors.ParserError` with its
message), or read into a raw frame. -/
inductive ReadResult where
  | notFound : ReadResult
  | parseError : String → ReadResult
  | ok : Frame → ReadResult

/-- Message of the `except FileNotFoundError` branch (line 69). -/
def msgNotFound : String :=
  "Error: El archivo Planta.csv no fue encontrado. Por favor, verifica la ruta y el nombre del archivo."

/-- Message of the `except pd.errors.ParserError` branch (line 72). -/
def msgParse (e : String) : String :=
  "Error al parsear el archivo CSV: " ++ e ++ ". Verifica que el archivo tenga el formato correcto."

/-- Message of the `except Exception` branch (line 75). -/
def msgUnknown (e : String) : String :=
  "Error inesperado al cargar los datos: " ++ e

/-- The whole of `load_data_optimized` (lines 41-76): returns the loaded
frame (or `none` on failure) together with the list of messages passed to
`st.error`. -/
def load_data_optimized (r : ReadResult) : Option Frame × List String :=
  match r with
  | .notFound => (none, [msgNotFound])
  | .parseError e => (none, [msgParse e])
  | .ok df =>
      match load_body df with
      | .ok d => (some d, [])
      | .error e => (none, [msgUnknown (pyErrorStr e)])

/-- Gate `if df is not None` (line 82): the charts, metrics and tables are
rendered exactly when a dataset was produced. -/
def dashboardRendered (res : Option Frame × List String) : Bool :=
  res.1.isSome

/-- Cell equality as pandas `isin` sees it: NaN matches NaN, numbers match
by value, strings by content. -/
def cellBeq : Cell → Cell → Bool
  | .na, .na => true
  | .num p, .num q => decide (p = q)
  | .text s, .text t => s == t
  | _, _ => false

/-- Pandas `Series.isin(xs)` for one element. -/
def isinCell (xs : List Cell) (c : Cell) : Bool :=
  xs.any (fun x => cellBeq c x)

/-- Worker for `Series.unique()`: keep the first occurrence of each value,
in order. -/
def uniqueAux (seen : Col) : Col → Col
  | [] => []
  | c :: rest =>
      if seen.any (fun x => cellBeq c x) then uniqueAux seen rest
      else c :: uniqueAux (seen ++ [c]) rest

/-- Pandas `Series.unique()` (lines 90-97: filter options and defaults). -/
def uniqueCells (col : Col) : Col :=
  uniqueAux [] col

/-- Boolean mask `df["DEPARTAMENTO"].isin(departamento) & df["Nivel"].isin(nivel)`. -/
def filterMask (dep niv : Col) (departamento nivel : List Cell) : List Bool :=
  List.zipWith (fun d l => isinCell departamento d && isinCell nivel l) dep niv

/-- Boolean-mask row selection applied to one column: keep the cells whose
mask entry is true. -/
def applyMask : List Bool → Col → Col
  | b :: bs, c :: cs => if b then c :: applyMask bs cs else applyMask bs cs
  | _, _ => []

/-- Filtered view `df_filtered` (lines 101-104): select the rows whose
department and level are both in the chosen sets; `.copy()` makes the view
independent, which the functional model gives for free. -/
def df_filtered (df : Frame) (departamento nivel : List Cell) : Except PyError Frame :=
  match getCol df "DEPARTAMENTO" with
  | .error e => .error e
  | .ok dep =>
      match getCol df "Nivel" with
      | .error e => .error e
      | .ok niv =>
          .ok (df.map (fun p => (p.1, applyMask (filterMask dep niv departamento nivel) p.2)))

/-- Rational addition through `mkRat`, kernel-reducible. -/
def qAdd (a b : ℚ) : ℚ :=
  mkRat (a.num * (b.den : Int) + b.num * (a.den : Int)) (a.den * b.den)

/-- Rational division through `mkRat`, kernel-reducible; division by zero
yields zero, which the callers never exercise. -/
def qDiv (a b : ℚ) : ℚ :=
  if b.num < 0 then mkRat (-(a.num * (b.den : Int))) (a.den * b.num.natAbs)
  else mkRat (a.num * (b.den : Int)) (a.den * b.num.natAbs)

/-- Pandas `Series.sum()`: sum of the numeric cells, NaN skipped, 0 on an
empty or all-NaN column.  After the load the summed columns hold only
numeric or NaN cells. -/
def sumCol (col : Col) : ℚ :=
  col.foldl (fun a c => match c with | .num q => qAdd a q | _ => a) 0

/-- Numeric cells of a column, as pandas aggregations see them. -/
def numericCells (col : Col) : List ℚ :=
  col.filterMap (fun c => match c with | .num q => some q | _ => none)

/-- Pandas `Series.mean()`: mean of the numeric cells; NaN (`none`) on an
empty or all-NaN column. -/
def meanCol (col : Col) : Option ℚ :=
  let nums := numericCells col
  if nums.length = 0 then none
  else some (qDiv (nums.foldl qAdd 0) (mkRat (nums.length : Int) 1))

/-- Groupby keys in first-occurrence order, NaN keys dropped as pandas
`groupby` drops them. -/
def groupKeys (keys : Col) : Col :=
  (uniqueCells keys).filter (fun c => match c with | .na => false | _ => true)

/-- Rows (key, value) whose key matches `k`. -/
def groupSelect (keys vals : Col) (k : Cell) : Col :=
  ((List.zip keys vals).filter (fun kv => cellBeq kv.1 k)).map (fun kv => kv.2)

/-- Pandas `groupby(keys)[vals].sum()`: one (key, sum) pair per non-NaN key. -/
def groupbySum (keys vals : Col) : List (Cell × ℚ) :=
  (groupKeys keys).map (fun k => (k, sumCol (groupSelect keys vals k)))

/-- Pandas `groupby(keys)[vals].mean()`: one (key, mean) pair per non-NaN key. -/
def groupbyMean (keys vals : Col) : List (Cell × Option ℚ) :=
  (groupKeys keys).map (fun k => (k, meanCol (groupSelect keys vals k)))

/-- Round to the nearest integer, ties to even — the rounding used by
Python `format` and numpy `round`. -/
def roundHalfEven (q : ℚ) : Int :=
  let f : Int := q.num.fdiv (q.den : Int)
  let r2 : Int := 2 * (q.num - f * (q.den : Int))
  if r2 < (q.den : Int) then f
  else if r2 > (q.den : Int) then f + 1
  else if f % 2 = 0 then f else f + 1

/-- Pandas `.round(2)` on one value. -/
def round2 (q : ℚ) : ℚ :=
  mkRat (roundHalfEven (mkRat (q.num * 100) q.den)) 100

/-- Decimal digits of a natural number, least significant first; the fuel
bounds the recursion and any fuel above the digit count is exact. -/
def natDigitsRev : Nat → Nat → List Char
  | 0, _ => []
  | fuel + 1, n =>
      if n < 10 then [Char.ofNat (n + 48)]
      else Char.ofNat (n % 10 + 48) :: natDigitsRev fuel (n / 10)

/-- Insert a comma after every block of three digits; the input is the
reversed digit list. -/
def group3 : List Char → List Char
  | a :: b :: c :: d :: rest => a :: b :: c :: ',' :: group3 (d :: rest)
  | l => l

/-- Python `f"{x:,.0f}"` for a finite value: round ties-to-even to an
integer and insert thousands separators.  (The float negative-zero corner,
where Python prints "-0", has no rational counterpart and is not
modelled.) -/
def formatThousands0 (q : ℚ) : String :=
  let n := roundHalfEven q
  (if n < 0 then "-" else "") ++ String.mk ((group3 (natDigitsRev (n.natAbs + 1) n.natAbs)).reverse)

/-- Python `f"{x:,.0f}"` on a possibly-NaN value: `format(float('nan'),
',.0f')` is the text `nan`. -/
def formatOptThousands0 : Option ℚ → String
  | none => "nan"
  | some q => formatThousands0 q

/-- Metric `Total Empleados` (lines 180-181): `f"{df_filtered['CANTIDAD'].sum():,.0f}"`. -/
def renderTotalEmpleados (df : Frame) : Except PyError String :=
  match getCol df "CANTIDAD" with
  | .error e => .error e
  | .ok col => .ok (formatThousands0 (sumCol col))

/-- Metric `Costo Mensual Total` (lines 184-185):
`f"${df_filtered['Total Mensual (COP)'].sum():,.0f} COP"`. -/
def renderCostoMensual (df : Frame) : Except PyError String :=
  match getCol df "Total Mensual (COP)" with
  | .error e => .error e
  | .ok col => .ok ("$" ++ formatThousands0 (sumCol col) ++ " COP")

/-- Metric `Salario Promedio` (lines 188-189):
`f"${df_filtered['SALARIO MENSUAL INDIVIDUAL'].mean():,.0f} COP"`. -/
def renderSalarioPromedio (df : Frame) : Except PyError String :=
  match getCol df "SALARIO MENSUAL INDIVIDUAL" with
  | .error e => .error e
  | .ok col => .ok ("$" ++ formatOptThousands0 (meanCol col) ++ " COP")

/-- Summary table `resumen_dept` (lines 193-197): group by department and
aggregate (sum of CANTIDAD, mean of salary, sum of total monthly cost),
rounded to two decimals; one row per department. -/
def resumen_dept (df : Frame) :
    Except PyError (List (Cell × ℚ × Option ℚ × ℚ)) :=
  match getCol df "DEPARTAMENTO" with
  | .error e => .error e
  | .ok dep =>
      match getCol df "CANTIDAD" with
      | .error e => .error e
      | .ok cant =>
          match getCol df "SALARIO MENSUAL INDIVIDUAL" with
          | .error e => .error e
          | .ok sal =>
              match getCol df "Total Mensual (COP)" with
              | .error e => .error e
              | .ok tot =>
                  .ok ((groupKeys dep).map (fun k =>
                    (k, round2 (sumCol (groupSelect dep cant k)),
                     (meanCol (groupSelect dep sal k)).map round2,
                     round2 (sumCol (groupSelect dep tot k)))))

/-- Alignment of a frame: every column has the same number of rows, as in
any frame produced by `pd.read_csv`. -/
def Aligned (df : Frame) (n : Nat) : Prop :=
  ∀ p ∈ df, (p : String × Col).2.length = n

/-- Raw 3-row table of the end-to-end scenario: departments A, A, B,
quantities 2, 3, 1, total monthly costs "$1,000", "$2,000", "$500"; the
other monetary columns are present and empty (all cells missing). -/
def rawScenario : Frame :=
  [("DEPARTAMENTO", [Cell.text "A", Cell.text "A", Cell.text "B"]),
   ("Nivel", [Cell.text "Senior", Cell.text "Junior", Cell.text "Senior"]),
   ("CANTIDAD", [Cell.text "2", Cell.text "3", Cell.text "1"])] ++
  monetary_columns.map (fun c =>
    (c, if c == "Total Mensual (COP)"
        then [Cell.text "$1,000", Cell.text "$2,000", Cell.text "$500"]
        else [Cell.na, Cell.na, Cell.na]))

/-- End-to-end pipeline of the scenario: load the raw table, filter to
department A with every observed level selected, and report (sum of
CANTIDAD, sum of Total Mensual (COP)) of the filtered view. -/
def scenarioResult : Option (ℚ × ℚ) :=
  match (load_data_optimized (.ok rawScenario)).1 with
  | none => none
  | some d =>
      match getCol d "Nivel" with
      | .error _ => none
      | .ok nivCol =>
          match df_filtered d [Cell.text "A"] (uniqueCells nivCol) with
          | .error _ => none
          | .ok fd =>
              match getCol fd "CANTIDAD", getCol fd "Total Mensual (COP)" with
              | .ok c, .ok t => some (sumCol c, sumCol t)
              | _, _ => none

/-- Raw 1-row table whose first monetary column holds the non-numeric text
"abc": the cleaning stage raises on it. -/
def rawBadMoney : Frame :=
  [("SALARIO MENSUAL INDIVIDUAL", [Cell.text "abc"]),
   ("CANTIDAD", [Cell.text "1"])]

/-- Raw 1-row table whose CANTIDAD cell is the text "n/a"; every listed
monetary column is present so the load succeeds. -/
def rawQuantity : Frame :=
  [("CANTIDAD", [Cell.text "n/a"])] ++ monetary_columns.map (fun c => (c, [Cell.na]))

/-- Small 1-row table used to exhibit an empty filtered view. -/
def rawOneRow : Frame :=
  [("DEPARTAMENTO", [Cell.text "A"]),
   ("Nivel", [Cell.text "X"]),
   ("CANTIDAD", [Cell.num 2]),
   ("SALARIO MENSUAL INDIVIDUAL", [Cell.num 100]),
   ("Total Mensual (COP)", [Cell.num 500])]

/-- Empty filtered view of `rawOneRow` (empty department selection). -/
def emptyView : Frame :=
  match df_filtered rawOneRow [] [] with
  | .ok fd => fd
  | .error _ => []

/-! Helper lemmas about the embedded operations. -/

theorem cellBeq_iff {a b : Cell} : cellBeq a b = true ↔ a = b := by
  cases a <;> cases b <;> simp [cellBeq]

theorem isinCell_of_mem {xs : List Cell} {c : Cell} (h : c ∈ xs) :
    isinCell xs c = true := by
  simp only [isinCell, List.any_eq_true]
  exact ⟨c, h, cellBeq_iff.mpr rfl⟩

theorem mem_uniqueAux {c : Cell} (l : Col) :
    ∀ seen : Col, c ∈ l → c ∈ uniqueAux seen l ∨ c ∈ seen := by
  induction l with
  | nil => intro seen h; cases h
  | cons a rest ih =>
      intro seen hc
      by_cases ha : seen.any (fun x => cellBeq a x) = true
      · rw [show uniqueAux seen (a :: rest) = uniqueAux seen rest by
          simp [uniqueAux, ha]]
        rcases List.mem_cons.mp hc with rfl | hcr
        · right
          obtain ⟨x, hx, hbeq⟩ := List.any_eq_true.mp ha
          rwa [cellBeq_iff.mp hbeq]
        · exact ih seen hcr
      · rw [show uniqueAux seen (a :: rest) = a :: uniqueAux (seen ++ [a]) rest by
          simp [uniqueAux, ha]]
        rcases List.mem_cons.mp hc with rfl | hcr
        · exact Or.inl (List.mem_cons_self _ _)
        · rcases ih (seen ++ [a]) hcr with h1 | h2
          · exact Or.inl (List.mem_cons_of_mem _ h1)
          · rcases List.mem_append.mp h2 with h2a | h2b
            · exact Or.inr h2a
            · simp only [List.mem_singleton] at h2b
              exact Or.inl (h2b ▸ List.mem_cons_self _ _)

theorem mem_uniqueCells {col : Col} {c : Cell} (h : c ∈ col) :
    c ∈ uniqueCells col := by
  rcases mem_uniqueAux col [] h with h1 | h2
  · exact h1
  · cases h2

theorem of_mem_zipWith {α β γ : Type} {f : α → β → γ} {x : γ} :
    ∀ {as : List α} {bs : List β}, x ∈ List.zipWith f as bs →
      ∃ a, a ∈ as ∧ ∃ b, b ∈ bs ∧ x = f a b := by
  intro as
  induction as with
  | nil => intro bs h; simp at h
  | cons a as ih =>
      intro bs h
      cases bs with
      | nil => simp at h
      | cons b bs =>
          rcases List.mem_cons.mp h with rfl | hr
          · exact ⟨a, List.mem_cons_self _ _, b, List.mem_cons_self _ _, rfl⟩
          · obtain ⟨a1, ha1, b1, hb1, hx⟩ := ih hr
            exact ⟨a1, List.mem_cons_of_mem _ ha1, b1, List.mem_cons_of_mem _ hb1, hx⟩

theorem applyMask_all_false :
    ∀ (mask : List Bool), (∀ b ∈ mask, b = false) → ∀ col : Col, applyMask mask col = [] := by
  intro mask
  induction mask with
  | nil => intro _ col; cases col <;> rfl
  | cons b bs ih =>
      intro h col
      cases col with
      | nil => rfl
      | cons c cs =>
          have hb : b = false := h b (List.mem_cons_self _ _)
          subst hb
          simpa [applyMask] using ih (fun x hx => h x (List.mem_cons_of_mem _ hx)) cs

theorem applyMask_all_true :
    ∀ (mask : List Bool), (∀ b ∈ mask, b = true) →
      ∀ col : Col, col.length ≤ mask.length → applyMask mask col = col := by
  intro mask
  induction mask with
  | nil =>
      intro _ col hlen
      cases col with
      | nil => rfl
      | cons c cs => simp at hlen
  | cons b bs ih =>
      intro h col hlen
      cases col with
      | nil => rfl
      | cons c cs =>
          have hb : b = true := h b (List.mem_cons_self _ _)
          subst hb
          simp only [applyMask, if_pos]
          exact congrArg (c :: ·)
            (ih (fun x hx => h x (List.mem_cons_of_mem _ hx)) cs
              (Nat.le_of_succ_le_succ hlen))

theorem hasCol_cons {p : String × Col} {rest : Frame} {c : String} :
    hasCol (p :: rest) c = ((p.1 == c) || hasCol rest c) := by
  simp [hasCol]

theorem getCol_cons {p : String × Col} {rest : Frame} {c : String} :
    getCol (p :: rest) c = if p.1 == c then .ok p.2 else getCol rest c := by
  by_cases hpc : (p.1 == c) = true
  · rw [if_pos hpc]
    have hf : List.find? (fun q => q.1 == c) (p :: rest) = some p :=
      List.find?_cons_of_pos _ hpc
    unfold getCol
    rw [hf]
  · rw [if_neg hpc]
    have hf : List.find? (fun q => q.1 == c) (p :: rest)
        = List.find? (fun q => q.1 == c) rest :=
      List.find?_cons_of_neg _ hpc
    unfold getCol
    rw [hf]

theorem getCol_ok_mem {df : Frame} {c : String} {col : Col}
    (h : getCol df c = .ok col) : (c, col) ∈ df := by
  unfold getCol at h
  cases hf : df.find? (fun p => p.1 == c) with
  | none => rw [hf] at h; cases h
  | some p =>
      rw [hf] at h
      have hm := List.mem_of_find?_eq_some hf
      have hp := List.find?_some hf
      cases h
      obtain ⟨p1, p2⟩ := p
      have h1 : p1 = c := by simpa using hp
      subst h1
      exact hm

theorem hasCol_of_getCol_ok {df : Frame} {c : String} {col : Col}
    (h : getCol df c = .ok col) : hasCol df c = true := by
  have hm := getCol_ok_mem h
  simp only [hasCol, List.any_eq_true]
  exact ⟨(c, col), hm, by simp⟩

theorem getCol_error_of_not_hasCol {df : Frame} {c : String}
    (h : hasCol df c = false) : getCol df c = .error (.keyError c) := by
  unfold getCol
  have hnone : df.find? (fun p => p.1 == c) = none := by
    rw [List.find?_eq_none]
    intro p hp hpc
    have : hasCol df c = true := by
      simp only [hasCol, List.any_eq_true]
      exact ⟨p, hp, hpc⟩
    rw [h] at this
    cases this
  rw [hnone]

theorem setCol_fst {a : String} {v : Col} (p : String × Col) :
    ((if p.1 == a then (a, v) else p) : String × Col).1 = p.1 := by
  by_cases hpa : (p.1 == a) = true
  · rw [if_pos hpa]
    exact (eq_of_beq hpa).symm
  · rw [if_neg hpa]

theorem hasCol_mapSet {a : String} {v : Col} (c : String) :
    ∀ df : Frame,
      hasCol (df.map (fun p => if p.1 == a then (a, v) else p)) c = hasCol df c := by
  intro df
  induction df with
  | nil => rfl
  | cons p rest ih =>
      simp only [List.map_cons, hasCol_cons, setCol_fst, ih]

theorem hasCol_setCol_of_hasCol {df : Frame} {a : String} {v : Col}
    (h : hasCol df a = true) (c : String) :
    hasCol (setCol df a v) c = hasCol df c := by
  unfold setCol
  rw [if_pos h]
  exact hasCol_mapSet c df

theorem getCol_mapSet_ne {a c : String} {v : Col} (hne : (a == c) = false) :
    ∀ df : Frame,
      getCol (df.map (fun p => if p.1 == a then (a, v) else p)) c = getCol df c := by
  intro df
  induction df with
  | nil => rfl
  | cons p rest ih =>
      simp only [List.map_cons, getCol_cons, setCol_fst, ih]
      by_cases hpc : (p.1 == c) = true
      · rw [if_pos hpc, if_pos hpc]
        have hpa : (p.1 == a) = false := by
          rcases Bool.eq_false_or_eq_true (p.1 == a) with ht | hf

          · have h1 : p.1 = a := eq_of_beq ht
            have hac : (a == c) = true := by
              rw [← h1]
              exact hpc
            rw [hac] at hne
            cases hne
          · exact hf
        rw [if_neg (by simp [hpa])]
      · rw [if_neg hpc, if_neg hpc]

theorem getCol_setCol_ne {df : Frame} {a c : String} {v : Col}
    (hne : (a == c) = false) (h : hasCol df a = true) :
    getCol (setCol df a v) c = getCol df c := by
  unfold setCol
  rw [if_pos h]
  exact getCol_mapSet_ne hne df

theorem getCol_setCol_self {df : Frame} {a : String} {v : Col}
    (h : hasCol df a = true) : getCol (setCol df a v) a = .ok v := by
  unfold setCol
  rw [if_pos h]
  induction df with
  | nil => cases h
  | cons p rest ih =>
      by_cases hpa : (p.1 == a) = true
      · simp only [List.map_cons, if_pos hpa, getCol_cons]
        rw [if_pos (by simp)]
      · have hrest : hasCol rest a = true := by
          rw [hasCol_cons] at h
          rcases Bool.or_eq_true_iff.mp h with h1 | h2
          · exact absurd h1 hpa
          · exact h2
        simp only [List.map_cons]
        rw [if_neg hpa, getCol_cons, if_neg hpa]
        exact ih hrest

theorem cleanMonetary_hasCol {c : String} :
    ∀ (l : List String) (df d : Frame), cleanMonetary df l = .ok d →
      hasCol d c = hasCol df c := by
  intro l
  induction l with
  | nil =>
      intro df d h
      cases h
      rfl
  | cons a rest ih =>
      intro df d h
      unfold cleanMonetary at h
      by_cases ha : hasCol df a = true
      · rw [if_pos ha] at h
        cases h1 : getCol df a with
        | error e => rw [h1] at h; cases h
        | ok col =>
            rw [h1] at h
            dsimp only at h
            cases h2 : clean_money_optimized col with
            | error e => rw [h2] at h; cases h
            | ok cleaned =>
                rw [h2] at h
                rw [ih _ _ h]
                exact hasCol_setCol_of_hasCol ha c
      · rw [if_neg ha] at h
        exact ih _ _ h

theorem cleanMonetary_getCol_not_mem {c : String} :
    ∀ (l : List String) (df d : Frame), c ∉ l → cleanMonetary df l = .ok d →
      getCol d c = getCol df c := by
  intro l
  induction l with
  | nil =>
      intro df d _ h
      cases h
      rfl
  | cons a rest ih =>
      intro df d hnm h
      have hac : (a == c) = false := by
        rcases Bool.eq_false_or_eq_true (a == c) with ht | hf
        · exact absurd (List.mem_cons.mpr (Or.inl (eq_of_beq ht).symm)) hnm
        · exact hf
      have hnr : c ∉ rest := fun hr => hnm (List.mem_cons_of_mem _ hr)
      unfold cleanMonetary at h
      by_cases ha : hasCol df a = true
      · rw [if_pos ha] at h
        cases h1 : getCol df a with
        | error e => rw [h1] at h; cases h
        | ok col =>
            rw [h1] at h
            dsimp only at h
            cases h2 : clean_money_optimized col with
            | error e => rw [h2] at h; cases h
            | ok cleaned =>
                rw [h2] at h
                rw [ih _ _ hnr h]
                exact getCol_setCol_ne hac ha
      · rw [if_neg ha] at h
        exact ih _ _ hnr h

theorem fillnaMonetary_error_of_missing {c : String} :
    ∀ (l : List String) (df : Frame), c ∈ l → hasCol df c = false →
      ∃ e, fillnaMonetary df l = .error e := by
  intro l
  induction l with
  | nil =>
      intro df hm
      cases hm
  | cons a rest ih =>
      intro df hm habs
      rcases List.mem_cons.mp hm with rfl | hmr
      · refine ⟨.keyError c, ?_⟩
        unfold fillnaMonetary
        rw [getCol_error_of_not_hasCol habs]
      · cases h1 : getCol df a with
        | error e =>
            refine ⟨e, ?_⟩
            unfold fillnaMonetary
            rw [h1]
        | ok col =>
            have ha : hasCol df a = true := hasCol_of_getCol_ok h1
            have habs2 : hasCol (setCol df a (col.map (fillnaCell 0))) c = false := by
              rw [hasCol_setCol_of_hasCol ha c]
              exact habs
            obtain ⟨e, he⟩ := ih _ hmr habs2
            refine ⟨e, ?_⟩
            unfold fillnaMonetary
            rw [h1]
            exact he

theorem fillnaMonetary_getCol_not_mem {c : String} :
    ∀ (l : List String) (df d : Frame), c ∉ l → fillnaMonetary df l = .ok d →
      getCol d c = getCol df c := by
  intro l
  induction l with
  | nil =>
      intro df d _ h
      cases h
      rfl
  | cons a rest ih =>
      intro df d hnm h
      have hac : (a == c) = false := by
        rcases Bool.eq_false_or_eq_true (a == c) with ht | hf
        · exact absurd (List.mem_cons.mpr (Or.inl (eq_of_beq ht).symm)) hnm
        · exact hf
      have hnr : c ∉ rest := fun hr => hnm (List.mem_cons_of_mem _ hr)
      unfold fillnaMonetary at h
      cases h1 : getCol df a with
      | error e => rw [h1] at h; cases h
      | ok col =>
          rw [h1] at h
          rw [ih _ _ hnr h]
          exact getCol_setCol_ne hac (hasCol_of_getCol_ok h1)

theorem dropWhile_nil_of_all {α : Type} {p : α → Bool} :
    ∀ l : List α, l.all p = true → l.dropWhile p = [] := by
  intro l
  induction l with
  | nil => intro _; rfl
  | cons a l ih =>
      intro h
      rw [List.all_cons, Bool.and_eq_true] at h
      rw [List.dropWhile_cons, if_pos h.1]
      exact ih h.2

theorem pyStrip_of_all_space {s : String} (h : s.data.all isPySpace = true) :
    pyStrip s = "" := by
  unfold pyStrip
  rw [dropWhile_nil_of_all _ h]
  rfl

theorem removeDollarComma_all_space {s : String}
    (h : s.data.all isPySpace = true) :
    (removeDollarComma s).data.all isPySpace = true := by
  rw [List.all_eq_true]
  intro c hc
  have hmem : c ∈ s.data := List.mem_of_mem_filter hc
  exact List.all_eq_true.mp h c hmem

theorem map_congr_mem {α β : Type} {f g : α → β} :
    ∀ l : List α, (∀ a ∈ l, f a = g a) → l.map f = l.map g := by
  intro l
  induction l with
  | nil => intro _; rfl
  | cons a l ih =>
      intro h
      simp only [List.map_cons]
      rw [h a (List.mem_cons_self _ _), ih (fun x hx => h x (List.mem_cons_of_mem _ hx))]

theorem map_id_of_forall {α : Type} {f : α → α} :
    ∀ l : List α, (∀ a ∈ l, f a = a) → l.map f = l := by
  intro l h
  rw [map_congr_mem l h]
  exact List.map_id l

theorem df_filtered_nil_dep {df : Frame} {nivel : List Cell} {dep niv : Col}
    (hdep : getCol df "DEPARTAMENTO" = .ok dep)
    (hniv : getCol df "Nivel" = .ok niv) :
    df_filtered df [] nivel = .ok (df.map (fun p => (p.1, ([] : Col)))) := by
  unfold df_filtered
  rw [hdep]
  dsimp only
  rw [hniv]
  dsimp only
  have hmask : ∀ b ∈ filterMask dep niv [] nivel, b = false := by
    intro b hb
    unfold filterMask at hb
    obtain ⟨d0, _, l0, _, rfl⟩ := of_mem_zipWith hb
    simp [isinCell]
  congr 1
  apply map_congr_mem
  intro p _
  rw [applyMask_all_false _ hmask p.2]

theorem df_filtered_nil_niv {df : Frame} {departamento : List Cell} {dep niv : Col}
    (hdep : getCol df "DEPARTAMENTO" = .ok dep)
    (hniv : getCol df "Nivel" = .ok niv) :
    df_filtered df departamento [] = .ok (df.map (fun p => (p.1, ([] : Col)))) := by
  unfold df_filtered
  rw [hdep]
  dsimp only
  rw [hniv]
  dsimp only
  have hmask : ∀ b ∈ filterMask dep niv departamento [], b = false := by
    intro b hb
    unfold filterMask at hb
    obtain ⟨d0, _, l0, _, rfl⟩ := of_mem_zipWith hb
    simp [isinCell]
  congr 1
  apply map_congr_mem
  intro p _
  rw [applyMask_all_false _ hmask p.2]

theorem aligned_of_all {df : Frame} {n : Nat}
    (h : df.all (fun p => p.2.length == n) = true) : Aligned df n := by
  intro p hp
  have h1 := List.all_eq_true.mp h p hp
  simpa using h1

/-! Claim theorems. -/

/-- Claim C1 (code bug): the claim says a per-value parse failure in the
Currency Parser yields the missing marker and the load still succeeds, and
the function's own docstring promises NaN where conversion fails; but
`astype(float)` raises `ValueError` on residual non-numeric text ("abc"),
and the loader's catch-all turns that into a failed load: no dataset, one
error message, dashboard skipped. -/
theorem clean_money_parse_failure_is_fatal :
    clean_money_optimized_cell (.text "abc") = .error (.valueError "abc") ∧
    clean_money_optimized [Cell.text "abc"] = .error (.valueError "abc") ∧
    load_data_optimized (.ok rawBadMoney)
      = (none, [msgUnknown (pyErrorStr (.valueError "abc"))]) ∧
    dashboardRendered (load_data_optimized (.ok rawBadMoney)) = false := by
  decide

/-- Claim C2: for every monetary text whose residue, after dropping `$` and
`,` and stripping whitespace, parses as a finite float value `q`, the
Currency Parser returns exactly the numeric value `q`. -/
theorem currency_parser_strips_symbols (s : String) (q : ℚ)
    (h : pyFloat (pyStrip (removeDollarComma s)) = some (some q)) :
    clean_money_optimized_cell (.text s) = .ok (.num q) := by
  by_cases he : pyStrip (removeDollarComma s) = ""
  · rw [he] at h
    have h0 : pyFloat "" = none := by decide
    rw [h0] at h
    cases h
  · simp [clean_money_optimized_cell, he, h]

/-- Witness for C2: `"$1,234.50"` parses to `1234.50 = 2469/2`. -/
theorem currency_parser_strips_symbols_witness :
    clean_money_optimized_cell (.text "$1,234.50") = .ok (.num (mkRat 2469 2)) :=
  currency_parser_strips_symbols "$1,234.50" (mkRat 2469 2) (by decide)

/-- Claim C3: every empty or whitespace-only monetary string cleans to the
missing marker, and the loader's zero-fill step turns that marker into
exactly 0. -/
theorem blank_money_missing_then_zero (s : String)
    (h : s.data.all isPySpace = true) :
    clean_money_optimized_cell (.text s) = .ok .na ∧
    fillnaCell 0 .na = .num 0 := by
  refine ⟨?_, rfl⟩
  have h1 : pyStrip (removeDollarComma s) = "" :=
    pyStrip_of_all_space (removeDollarComma_all_space h)
  simp [clean_money_optimized_cell, h1]

/-- Witness for C3: the two-space string. -/
theorem blank_money_missing_then_zero_witness :
    clean_money_optimized_cell (.text "  ") = .ok .na ∧
    fillnaCell 0 .na = .num 0 :=
  blank_money_missing_then_zero "  " (by decide)

/-- Claim C4: any quantity value that fails numeric coercion (missing, or
text such as "n/a") loads as exactly 1 — not 0 and not an error: the loaded
CANTIDAD column is exactly the original one mapped through
`to_numeric(errors='coerce')` then `fillna(1)`, and on a failing cell that
composition gives 1. -/
theorem quantity_coercion_default_one (df d : Frame) (cant : Col) (x : Cell)
    (hload : load_body df = .ok d)
    (hcant : getCol df "CANTIDAD" = .ok cant)
    (hfail : toNumericCell x = .na) :
    getCol d "CANTIDAD" = .ok ((cant.map toNumericCell).map (fillnaCell 1)) ∧
    fillnaCell 1 (toNumericCell x) = .num 1 ∧
    fillnaCell 1 (toNumericCell x) ≠ .num 0 := by
  refine ⟨?_, by rw [hfail]; rfl, by rw [hfail]; simp [fillnaCell]⟩
  unfold load_body at hload
  cases h1 : cleanMonetary df monetary_columns with
  | error e => rw [h1] at hload; cases hload
  | ok d1 =>
      rw [h1] at hload
      dsimp only at hload
      have hg1 : getCol d1 "CANTIDAD" = .ok cant := by
        rw [cleanMonetary_getCol_not_mem _ _ _ (by decide) h1]
        exact hcant
      rw [hg1] at hload
      dsimp only at hload
      have hhas : hasCol d1 "CANTIDAD" = true := hasCol_of_getCol_ok hg1
      rw [fillnaMonetary_getCol_not_mem _ _ _ (by decide) hload]
      exact getCol_setCol_self hhas

/-- Witness for C4: loading a table whose CANTIDAD column is the single
text "n/a" yields quantity 1. -/
theorem quantity_coercion_default_one_witness :
    getCol ((load_body rawQuantity).toOption.getD []) "CANTIDAD"
      = .ok (([Cell.text "n/a"].map toNumericCell).map (fillnaCell 1)) ∧
    fillnaCell 1 (toNumericCell (Cell.text "n/a")) = .num 1 ∧
    fillnaCell 1 (toNumericCell (Cell.text "n/a")) ≠ .num 0 :=
  quantity_coercion_default_one rawQuantity ((load_body rawQuantity).toOption.getD [])
    [Cell.text "n/a"] (Cell.text "n/a") (by decide) (by decide) (by decide)

/-- Claim C5: filtering with the department selection equal to all observed
department values and the level selection equal to all observed level
values is the identity on the loaded table. -/
theorem filter_all_categories_identity (df : Frame) (n : Nat) (dep niv : Col)
    (hal : Aligned df n)
    (hdep : getCol df "DEPARTAMENTO" = .ok dep)
    (hniv : getCol df "Nivel" = .ok niv) :
    df_filtered df (uniqueCells dep) (uniqueCells niv) = .ok df := by
  unfold df_filtered
  rw [hdep]
  dsimp only
  rw [hniv]
  dsimp only
  have hdl : dep.length = n := hal _ (getCol_ok_mem hdep)
  have hnl : niv.length = n := hal _ (getCol_ok_mem hniv)
  have hmaskt : ∀ b ∈ filterMask dep niv (uniqueCells dep) (uniqueCells niv), b = true := by
    intro b hb
    unfold filterMask at hb
    obtain ⟨d0, hd0, l0, hl0, rfl⟩ := of_mem_zipWith hb
    rw [isinCell_of_mem (mem_uniqueCells hd0), isinCell_of_mem (mem_uniqueCells hl0)]
    rfl
  have hmaskl : (filterMask dep niv (uniqueCells dep) (uniqueCells niv)).length = n := by
    unfold filterMask
    rw [List.length_zipWith, hdl, hnl, Nat.min_self]
  congr 1
  apply map_id_of_forall
  intro p hp
  have hpl : p.2.length = n := hal p hp
  rw [applyMask_all_true _ hmaskt _ (by rw [hpl, hmaskl])]

/-- Witness for C5 on a concrete aligned 1-row table. -/
theorem filter_all_categories_identity_witness :
    df_filtered rawOneRow (uniqueCells [Cell.text "A"]) (uniqueCells [Cell.text "X"])
      = .ok rawOneRow :=
  filter_all_categories_identity rawOneRow 1 [Cell.text "A"] [Cell.text "X"]
    (aligned_of_all (by decide)) (by decide) (by decide)

/-- Claim C6: filtering with an empty department selection (and
symmetrically an empty level selection) succeeds and returns a view with
zero rows: every column of the result is empty. -/
theorem filter_empty_selection_no_rows (df : Frame)
    (departamento nivel : List Cell) (dep niv : Col)
    (hdep : getCol df "DEPARTAMENTO" = .ok dep)
    (hniv : getCol df "Nivel" = .ok niv) :
    df_filtered df [] nivel = .ok (df.map (fun p => (p.1, ([] : Col)))) ∧
    df_filtered df departamento [] = .ok (df.map (fun p => (p.1, ([] : Col)))) :=
  ⟨df_filtered_nil_dep hdep hniv, df_filtered_nil_niv hdep hniv⟩

/-- Witness for C6 on a concrete 1-row table. -/
theorem filter_empty_selection_no_rows_witness :
    df_filtered rawOneRow [] [Cell.text "X"]
      = .ok (rawOneRow.map (fun p => (p.1, ([] : Col)))) ∧
    df_filtered rawOneRow [Cell.text "A"] []
      = .ok (rawOneRow.map (fun p => (p.1, ([] : Col)))) :=
  filter_empty_selection_no_rows rawOneRow [Cell.text "A"] [Cell.text "X"]
    [Cell.text "A"] [Cell.text "X"] (by decide) (by decide)

/-- Claim C8: the end-to-end scenario — 3 rows, departments {A, A, B},
quantities {2, 3, 1}, total monthly costs {"$1,000", "$2,000", "$500"};
loading, filtering to department A with all levels, and aggregating yields
total headcount 5 and total monthly cost 3000. -/
theorem scenario_filter_a_sums :
    scenarioResult = some (5, 3000) := by
  decide

/-- Claim C9: every load failure is classified as exactly one of NotFound,
ParseError, or UnknownError; in each failure case no dataset is produced,
exactly one user-visible message is emitted (of the corresponding form),
and the dashboard body is skipped. -/
theorem load_failure_taxonomy (r : ReadResult)
    (h : (load_data_optimized r).1 = none) :
    dashboardRendered (load_data_optimized r) = false ∧
    (load_data_optimized r).2.length = 1 ∧
    ((load_data_optimized r).2 = [msgNotFound] ∨
     (∃ e, (load_data_optimized r).2 = [msgParse e]) ∨
     (∃ e, (load_data_optimized r).2 = [msgUnknown (pyErrorStr e)])) := by
  cases r with
  | notFound => exact ⟨rfl, rfl, Or.inl rfl⟩
  | parseError e => exact ⟨rfl, rfl, Or.inr (Or.inl ⟨e, rfl⟩)⟩
  | ok df =>
      cases hb : load_body df with
      | ok d =>
          have hld : load_data_optimized (.ok df) = (some d, []) := by
            simp [load_data_optimized, hb]
          rw [hld] at h
          cases h
      | error e =>
          have hld : load_data_optimized (.ok df)
              = (none, [msgUnknown (pyErrorStr e)]) := by
            simp [load_data_optimized, hb]
          rw [hld]
          exact ⟨rfl, rfl, Or.inr (Or.inr ⟨e, rfl⟩)⟩

/-- Witness for C9: the missing-file case. -/
theorem load_failure_taxonomy_witness :
    dashboardRendered (load_data_optimized .notFound) = false ∧
    (load_data_optimized .notFound).2.length = 1 ∧
    ((load_data_optimized .notFound).2 = [msgNotFound] ∨
     (∃ e, (load_data_optimized .notFound).2 = [msgParse e]) ∨
     (∃ e, (load_data_optimized .notFound).2 = [msgUnknown (pyErrorStr e)])) :=
  load_failure_taxonomy .notFound rfl

/-- Claim C10: if any listed monetary column is absent from the raw table,
the load fails entirely (no dataset, one message): the per-column cleaning
step skips absent columns, but the unconditional zero-fill indexing raises
`KeyError`, so no partially cleaned dataset ever escapes. -/
theorem missing_monetary_column_fails_load (df : Frame) (c : String)
    (hc : c ∈ monetary_columns) (habs : hasCol df c = false) :
    (load_data_optimized (.ok df)).1 = none ∧
    (load_data_optimized (.ok df)).2.length = 1 := by
  suffices h : ∃ e, load_body df = .error e by
    obtain ⟨e, he⟩ := h
    simp [load_data_optimized, he]
  unfold load_body
  cases h1 : cleanMonetary df monetary_columns with
  | error e => exact ⟨e, rfl⟩
  | ok d1 =>
      dsimp only
      cases h2 : getCol d1 "CANTIDAD" with
      | error e => exact ⟨e, rfl⟩
      | ok cant =>
          dsimp only
          have hpres : hasCol
              (setCol d1 "CANTIDAD" ((cant.map toNumericCell).map (fillnaCell 1))) c
              = false := by
            rw [hasCol_setCol_of_hasCol (hasCol_of_getCol_ok h2) c]
            rw [cleanMonetary_hasCol _ _ _ h1]
            exact habs
          exact fillnaMonetary_error_of_missing _ _ hc hpres

/-- Witness for C10: a frame with no columns at all. -/
theorem missing_monetary_column_fails_load_witness :
    (load_data_optimized (.ok ([] : Frame))).1 = none ∧
    (load_data_optimized (.ok ([] : Frame))).2.length = 1 :=
  missing_monetary_column_fails_load [] "SALARIO MENSUAL INDIVIDUAL"
    (by decide) (by decide)

/-- Counterexample to claim C7 as stated: on a concrete empty filtered view
no aggregation throws and the sums are 0, but the mean does NOT surface as
an explicit "no data" state — the average-salary metric formats the NaN
mean and renders the literal text "$nan COP". -/
theorem empty_view_mean_renders_nan :
    df_filtered rawOneRow [] [] = .ok emptyView ∧
    renderSalarioPromedio emptyView = .ok ("$nan COP") ∧
    renderTotalEmpleados emptyView = .ok "0" ∧
    renderCostoMensual emptyView = .ok ("$0 COP") ∧
    resumen_dept emptyView = .ok [] := by
  decide

/-- Claim C7 as amended: over an empty filtered view every aggregation is
well-defined and error-free — every column is empty, sums yield 0, group-by
results are empty, and the mean is the missing value (NaN); but the
average-salary metric renders that NaN as the literal text "$nan COP"
rather than an explicit "no data" state. -/
theorem empty_view_aggregations (df : Frame) (nivel : List Cell) (fd : Frame)
    (c : String) (col : Col) (s : String) (r : List (Cell × ℚ × Option ℚ × ℚ))
    (hfil : df_filtered df [] nivel = .ok fd)
    (hcol : getCol fd c = .ok col)
    (hs : renderSalarioPromedio fd = .ok s)
    (hr : resumen_dept fd = .ok r) :
    col = [] ∧ sumCol col = 0 ∧ meanCol col = none ∧
    groupbySum col col = [] ∧ s = "$nan COP" ∧ r = [] := by
  have hfd : fd = df.map (fun p => (p.1, ([] : Col))) := by
    cases hdep : getCol df "DEPARTAMENTO" with
    | error e =>
        unfold df_filtered at hfil
        rw [hdep] at hfil
        cases hfil
    | ok dep =>
        cases hniv : getCol df "Nivel" with
        | error e =>
            unfold df_filtered at hfil
            rw [hdep] at hfil
            dsimp only at hfil
            rw [hniv] at hfil
            cases hfil
        | ok niv =>
            have h1 := @df_filtered_nil_dep df nivel dep niv hdep hniv
            exact Except.ok.inj (hfil.symm.trans h1)
  have hcols : ∀ (c0 : String) (col0 : Col), getCol fd c0 = .ok col0 → col0 = [] := by
    intro c0 col0 hg
    have hm := getCol_ok_mem hg
    rw [hfd] at hm
    obtain ⟨p, _, hpe⟩ := List.mem_map.mp hm
    cases hpe
    rfl
  have hcol0 : col = [] := hcols c col hcol
  refine ⟨hcol0, by rw [hcol0]; rfl, by rw [hcol0]; rfl, by rw [hcol0]; rfl, ?_, ?_⟩
  · unfold renderSalarioPromedio at hs
    cases hsal : getCol fd "SALARIO MENSUAL INDIVIDUAL" with
    | error e => rw [hsal] at hs; cases hs
    | ok salcol =>
        rw [hsal] at hs
        dsimp only at hs
        rw [hcols _ _ hsal] at hs
        cases hs
        rfl
  · unfold resumen_dept at hr
    cases hdep : getCol fd "DEPARTAMENTO" with
    | error e => rw [hdep] at hr; cases hr
    | ok dep =>
        rw [hdep] at hr
        dsimp only at hr
        cases hcant : getCol fd "CANTIDAD" with
        | error e => rw [hcant] at hr; cases hr
        | ok cant =>
            rw [hcant] at hr
            dsimp only at hr
            cases hsal : getCol fd "SALARIO MENSUAL INDIVIDUAL" with
            | error e => rw [hsal] at hr; cases hr
            | ok sal =>
                rw [hsal] at hr
                dsimp only at hr
                cases htot : getCol fd "Total Mensual (COP)" with
                | error e => rw [htot] at hr; cases hr
                | ok tot =>
                    rw [htot] at hr
                    dsimp only at hr
                    rw [hcols _ _ hdep] at hr
                    cases hr
                    rfl

/-- Witness for the amended C7 on the concrete empty view. -/
theorem empty_view_aggregations_witness :
    ([] : Col) = [] ∧ sumCol [] = 0 ∧ meanCol [] = none ∧
    groupbySum [] [] = [] ∧ "$nan COP" = "$nan COP" ∧
    ([] : List (Cell × ℚ × Option ℚ × ℚ)) = [] :=
  empty_view_aggregations rawOneRow [] emptyView "CANTIDAD" [] "$nan COP" []
    (by decide) (by decide) (by decide) (by decide)

end Dashboard
